import Mathlib

/-!
# Boot image header contract (`src/bootrom.h`)

A shallow embedding of the declarations of `bootrom.h`: the result codes, the
four binary header records, the attribute / offset / signature constants, and
the two public operations of the image builder.

The record types are embedded as values of a small C type language (`CType`)
whose `sizeof`, `alignof` and `offsetof` follow the usual C layout rules
(natural alignment, members of a struct laid out in order, members of a union
all at offset 0, anonymous struct/union members searched transparently).
The object-like macros of the partition-attribute block are embedded as
expression trees (`CExpr`) evaluated against the table of macros the header
defines, so that a macro naming an identifier that was never defined has no
value.
-/

namespace Bootrom

/-! ## Result codes (bootrom.h lines 6-11) -/

def BOOTROM_SUCCESS : Nat := 0
def BOOTROM_ERROR_NOFILE : Nat := 1
def BOOTROM_ERROR_BITSTREAM : Nat := 2
def BOOTROM_ERROR_ELF : Nat := 3
def BOOTROM_ERROR_SEC_OVERLAP : Nat := 4
def BOOTROM_ERROR_UNSUPPORTED : Nat := 5

/-- The five error codes the header defines. -/
def errorCodes : List Nat :=
  [BOOTROM_ERROR_NOFILE, BOOTROM_ERROR_BITSTREAM, BOOTROM_ERROR_ELF,
   BOOTROM_ERROR_SEC_OVERLAP, BOOTROM_ERROR_UNSUPPORTED]

/-- Every result code the header defines: success and the five errors. -/
def resultCodes : List Nat := BOOTROM_SUCCESS :: errorCodes

/-- The error kinds of the specification (section 7). -/
inductive ErrorKind where
  | NoFile
  | BitstreamFormat
  | ElfFormat
  | SectionOverlap
  | Unsupported
  deriving DecidableEq, Repr

/-- The result code that surfaces each error kind. -/
def ErrorKind.code : ErrorKind → Nat
  | .NoFile => BOOTROM_ERROR_NOFILE
  | .BitstreamFormat => BOOTROM_ERROR_BITSTREAM
  | .ElfFormat => BOOTROM_ERROR_ELF
  | .SectionOverlap => BOOTROM_ERROR_SEC_OVERLAP
  | .Unsupported => BOOTROM_ERROR_UNSUPPORTED

/-! ## C type layout -/

/-- Round `n` up to the next multiple of `a`. -/
def roundUp (n a : Nat) : Nat := (n + a - 1) / a * a

mutual
/-- The C types that occur in the header. -/
inductive CType where
  | u8 : CType
  | u32 : CType
  | array : CType → Nat → CType
  | struct : Members → CType
  | union : Members → CType
/-- Member list of a struct or union: named fields and anonymous
struct/union members. -/
inductive Members where
  | nil : Members
  | field : String → CType → Members → Members
  | anon : CType → Members → Members
end

mutual
/-- Alignment requirement of a type in bytes. -/
def CType.alignof : CType → Nat
  | .u8 => 1
  | .u32 => 4
  | .array t _ => t.alignof
  | .struct ms => ms.alignof
  | .union ms => ms.alignof
/-- Strictest alignment among the members. -/
def Members.alignof : Members → Nat
  | .nil => 1
  | .field _ t rest => max t.alignof rest.alignof
  | .anon t rest => max t.alignof rest.alignof
end

mutual
/-- Size of a type in bytes: a struct is the end of its last member, a union
is its largest member, both rounded up to the alignment. -/
def CType.sizeof : CType → Nat
  | .u8 => 1
  | .u32 => 4
  | .array t n => n * t.sizeof
  | .struct ms => roundUp (ms.structEnd 0) ms.alignof
  | .union ms => roundUp ms.unionEnd ms.alignof
/-- End offset of the struct members laid out in order from `off`. -/
def Members.structEnd : Members → Nat → Nat
  | .nil, off => off
  | .field _ t rest, off => rest.structEnd (roundUp off t.alignof + t.sizeof)
  | .anon t rest, off => rest.structEnd (roundUp off t.alignof + t.sizeof)
/-- Size of the largest union member. -/
def Members.unionEnd : Members → Nat
  | .nil => 0
  | .field _ t rest => max t.sizeof rest.unionEnd
  | .anon t rest => max t.sizeof rest.unionEnd
end

mutual
/-- Byte offset of the field named `f` (C `offsetof`), `none` when the type has
no such field. Anonymous members are searched as C does. -/
def CType.offsetof : CType → String → Option Nat
  | .u8, _ => none
  | .u32, _ => none
  | .array _ _, _ => none
  | .struct ms, f => ms.structOffsetof f 0
  | .union ms, f => ms.unionOffsetof f
/-- Field search among struct members laid out from `off`. -/
def Members.structOffsetof : Members → String → Nat → Option Nat
  | .nil, _, _ => none
  | .field n t rest, f, off =>
    if n = f then some (roundUp off t.alignof)
    else rest.structOffsetof f (roundUp off t.alignof + t.sizeof)
  | .anon t rest, f, off =>
    match t.offsetof f with
    | some o => some (roundUp off t.alignof + o)
    | none => rest.structOffsetof f (roundUp off t.alignof + t.sizeof)
/-- Field search among union members, all at offset 0. -/
def Members.unionOffsetof : Members → String → Option Nat
  | .nil, _ => none
  | .field n _ rest, f => if n = f then some 0 else rest.unionOffsetof f
  | .anon t rest, f =>
    match t.offsetof f with
    | some o => some o
    | none => rest.unionOffsetof f
end

mutual
/-- Size in bytes of the field named `f`, `none` when the type has no such
field. Anonymous members are searched as C does. -/
def CType.fieldSizeof : CType → String → Option Nat
  | .u8, _ => none
  | .u32, _ => none
  | .array _ _, _ => none
  | .struct ms, f => ms.fieldSizeof f
  | .union ms, f => ms.fieldSizeof f
/-- Field search among the members of a struct or union. -/
def Members.fieldSizeof : Members → String → Option Nat
  | .nil, _ => none
  | .field n t rest, f => if n = f then some t.sizeof else rest.fieldSizeof f
  | .anon t rest, f =>
    match t.fieldSizeof f with
    | some sz => some sz
    | none => rest.fieldSizeof f
end

/-! ## The header records (bootrom.h lines 16-127) -/

/-- The zynq part of the boot header (bootrom.h lines 43-53). -/
def bootrom_hdr_zynq_part : CType :=
  .struct <|
    .anon (.union <|
      .field "user_defined_zynq_0" (.array .u32 21) <|
      .field "fsbl_defined_zynq_0" (.array .u32 21) <|
      .nil) <|
    .field "reg_init_zynq" (.array .u32 512) <|
    .anon (.union <|
      .field "user_defined_zynq_1" (.array .u32 8) <|
      .field "fsbl_defined_zynq_1" (.array .u32 8) <|
      .nil) <|
    .nil

/-- The zynqmp part of the boot header (bootrom.h lines 55-65). -/
def bootrom_hdr_zynqmp_part : CType :=
  .struct <|
    .field "obfuscated_key" (.array .u32 8) <|
    .field "reserved_zynqmp" .u32 <|
    .anon (.union <|
      .field "user_defined_zynqmp_0" (.array .u32 12) <|
      .field "fsbl_defined_zynqmp_0" (.array .u32 12) <|
      .nil) <|
    .field "sec_hdr_init_vec" (.array .u32 3) <|
    .field "obf_key_init_vec" (.array .u32 3) <|
    .field "reg_init_zynqmp" (.array .u32 512) <|
    .nil

/-- BootROM header `bootrom_hdr_t` (bootrom.h lines 17-67). -/
def bootrom_hdr_t : CType :=
  .struct <|
    .field "interrupt_table" (.array .u32 8) <|
    .field "width_detect" .u32 <|
    .field "img_id" .u32 <|
    .field "encryption_status" .u32 <|
    .anon (.union <|
      .field "user_defined_0" .u32 <|
      .field "fsbl_defined_0" .u32 <|
      .field "fsbl_execution_addr" .u32 <|
      .nil) <|
    .field "src_offset" .u32 <|
    .field "img_len" .u32 <|
    .field "reserved_0" .u32 <|
    .anon (.union <|
      .field "start_of_exec" .u32 <|
      .field "fsbl_img_len" .u32 <|
      .nil) <|
    .field "total_img_len" .u32 <|
    .anon (.union <|
      .field "reserved_1" .u32 <|
      .field "fsbl_target_cpu" .u32 <|
      .nil) <|
    .field "checksum" .u32 <|
    .anon (.union <|
      .anon bootrom_hdr_zynq_part <|
      .anon bootrom_hdr_zynqmp_part <|
      .nil) <|
    .nil

/-- The zynqmp additions of the image header table (bootrom.h lines 81-85). -/
def bootrom_img_hdr_tab_zynqmp_part : CType :=
  .struct <|
    .field "boot_dev" .u32 <|
    .field "reserved" (.array .u32 9) <|
    .field "checksum" .u32 <|
    .nil

/-- BootROM image header table `bootrom_img_hdr_tab_t` (bootrom.h lines 70-87). -/
def bootrom_img_hdr_tab_t : CType :=
  .struct <|
    .field "version" .u32 <|
    .field "hdrs_count" .u32 <|
    .field "part_hdr_off" .u32 <|
    .field "part_img_hdr_off" .u32 <|
    .field "auth_hdr_off" .u32 <|
    .anon (.union <|
      .field "padding" (.array .u32 11) <|
      .anon bootrom_img_hdr_tab_zynqmp_part <|
      .nil) <|
    .nil

/-- BootROM partition header `bootrom_partition_hdr_t` (bootrom.h lines 91-110). -/
def bootrom_partition_hdr_t : CType :=
  .struct <|
    .field "pd_word_len" .u32 <|
    .field "ed_word_len" .u32 <|
    .field "total_word_len" .u32 <|
    .field "dest_load_addr" .u32 <|
    .field "dest_exec_addr" .u32 <|
    .field "data_off" .u32 <|
    .field "attributes" .u32 <|
    .field "section_count" .u32 <|
    .field "checksum_off" .u32 <|
    .field "img_hdr_off" .u32 <|
    .field "cert_off" .u32 <|
    .field "reserved" (.array .u32 4) <|
    .field "checksum" .u32 <|
    .nil

def BOOTROM_IMG_MAX_NAME_LEN : Nat := 32
def BOOTROM_IMG_PADDING_SIZE : Nat := 64

/-- BootROM image header `bootrom_img_hdr_t` (bootrom.h lines 117-127). -/
def bootrom_img_hdr_t : CType :=
  .struct <|
    .field "next_img_off" .u32 <|
    .field "part_hdr_off" .u32 <|
    .field "part_count" .u32 <|
    .field "name_len" .u32 <|
    .field "name" (.array .u8 BOOTROM_IMG_MAX_NAME_LEN) <|
    .nil

/-! ## Fixed offsets and documented values (bootrom.h lines 162-194) -/

def BOOTROM_IMG_HDR_OFF : Nat := 0x000008c0
def BOOTROM_PART_HDR_OFF : Nat := 0x00000c80
def BOOTROM_PART_HDR_END_OFF : Nat := 0x00000d7c
def BOOTROM_BINS_OFF : Nat := 0x00001700
def BOOTROM_PART_HDR_OFF_ZMP : Nat := 0x00000a00

def BOOTROM_WIDTH_DETECT : Nat := 0xAA995566
def BOOTROM_IMG_ID : String := "XNLX"
def BOOTROM_MIN_SRC_OFFSET : Nat := 0x000008C0

/-- A half-open byte range `[start, stop)` of the image. -/
structure Range where
  start : Nat
  stop : Nat
  deriving DecidableEq, Repr

/-- Two ranges do not intersect. -/
def Range.disjoint (a b : Range) : Prop := a.stop ≤ b.start ∨ b.stop ≤ a.start

instance (a b : Range) : Decidable (a.disjoint b) := by
  unfold Range.disjoint; infer_instance

/-- The range a record of type `t` occupies when placed at byte offset `off`. -/
def recordRange (off : Nat) (t : CType) : Range := ⟨off, off + t.sizeof⟩

/-- A record ends in a checksum field: it has a field named `checksum` and
that field is the last 4 bytes of the record. -/
def endsInChecksum (t : CType) : Prop := t.offsetof "checksum" = some (t.sizeof - 4)

instance (t : CType) : Decidable (endsInChecksum t) := by
  unfold endsInChecksum; infer_instance

/-! ## Partition attribute macros (bootrom.h lines 144-160) -/

/-- The integer expressions that occur as macro bodies and in their uses. -/
inductive CExpr where
  | lit : Nat → CExpr
  | ident : String → CExpr
  | shl : CExpr → CExpr → CExpr
  | shr : CExpr → CExpr → CExpr
  | band : CExpr → CExpr → CExpr
  | bor : CExpr → CExpr → CExpr
  deriving Repr

/-- Why an expression has no value. -/
inductive CError where
  | undeclared : String → CError
  | depth : CError
  deriving DecidableEq, Repr

/-- The object-like macros of the partition-attribute block, bodies as written
in the header (identifiers inside a body are kept as identifiers, as the
preprocessor does until the macro is used). -/
def partAttrMacros : List (String × CExpr) :=
  [ ("BOOTROM_PART_ATTR_OWNER_OFF", .lit 16),
    ("BOOTROM_PART_ATTR_OWNER_MASK", .shl (.lit 3) (.ident "BOOTROM_PART_ATTR_OWNER_OFF")),
    ("BOOTROM_PART_ATTR_OWNER_FSBL", .lit 0),
    ("BOOTROM_PART_ATTR_OWNER_UBOOT", .lit 1),
    ("BOOTROM_PART_ATTR_RSA_USED_OFF", .lit 15),
    ("BOOTROM_PART_ATTR_RSA_USED_MASK", .shl (.lit 1) (.ident "BOOTROM_PATR_ATTR_RSA_USED_OFF")),
    ("BOOTROM_PART_ATTR_RSA_USED", .lit 1),
    ("BOOTROM_PART_ATTR_RSA_NOT_USED", .lit 0),
    ("BOOTROM_PART_ATTR_DEST_DEV_OFF", .lit 4),
    ("BOOTROM_PART_ATTR_DEST_DEV_MASK", .shl (.lit 7) (.ident "BOOTRM_PART_ATTR_DEST_DEV_OFF")),
    ("BOOTROM_PART_ATTR_DEST_DEV_NONE", .lit 0),
    ("BOOTROM_PART_ATTR_DEST_DEV_PS", .lit 1),
    ("BOOTROM_PART_ATTR_DEST_DEV_PL", .lit 2),
    ("BOOTROM_PART_ATTR_DEST_DEV_INT", .lit 3) ]

/-- Look a name up in an association list. -/
def lookupName {α : Type} (n : String) : List (String × α) → Option α
  | [] => none
  | (k, v) :: rest => if k = n then some v else lookupName n rest

/-- Value of an expression as a 32-bit unsigned quantity. An identifier is
first looked up among the macros (and replaced by its body), then among the
variables `vars` in scope at the place of use; an identifier that is neither
is undeclared and the expression has no value. `fuel` bounds the nesting
depth of the evaluation. -/
def CExpr.eval (macros : List (String × CExpr)) (vars : List (String × Nat)) :
    Nat → CExpr → Except CError Nat
  | 0, _ => .error .depth
  | _ + 1, .lit n => .ok (n % 2 ^ 32)
  | fuel + 1, .ident x =>
    match lookupName x macros with
    | some body => CExpr.eval macros vars fuel body
    | none =>
      match lookupName x vars with
      | some v => .ok (v % 2 ^ 32)
      | none => .error (.undeclared x)
  | fuel + 1, .shl a b =>
    match CExpr.eval macros vars fuel a, CExpr.eval macros vars fuel b with
    | .ok x, .ok y => .ok ((x <<< y) % 2 ^ 32)
    | .error e, _ => .error e
    | _, .error e => .error e
  | fuel + 1, .shr a b =>
    match CExpr.eval macros vars fuel a, CExpr.eval macros vars fuel b with
    | .ok x, .ok y => .ok (x >>> y)
    | .error e, _ => .error e
    | _, .error e => .error e
  | fuel + 1, .band a b =>
    match CExpr.eval macros vars fuel a, CExpr.eval macros vars fuel b with
    | .ok x, .ok y => .ok (x &&& y)
    | .error e, _ => .error e
    | _, .error e => .error e
  | fuel + 1, .bor a b =>
    match CExpr.eval macros vars fuel a, CExpr.eval macros vars fuel b with
    | .ok x, .ok y => .ok (x ||| y)
    | .error e, _ => .error e
    | _, .error e => .error e

/-- Evaluation depth that suffices for every expression used below. -/
def evalDepth : Nat := 16

/-- Value of an expression against the macros of the header. -/
def evalHdr (vars : List (String × Nat)) (e : CExpr) : Except CError Nat :=
  e.eval partAttrMacros vars evalDepth

/-- The attributes word
`(owner << OWNER_OFF) | (rsa << RSA_USED_OFF) | (dev << DEST_DEV_OFF)`. -/
def packAttrExpr : CExpr :=
  .bor
    (.bor (.shl (.ident "owner") (.ident "BOOTROM_PART_ATTR_OWNER_OFF"))
          (.shl (.ident "rsa") (.ident "BOOTROM_PART_ATTR_RSA_USED_OFF")))
    (.shl (.ident "dev") (.ident "BOOTROM_PART_ATTR_DEST_DEV_OFF"))

/-- The field extraction `(w & MASK) >> OFF`. -/
def unpackAttrExpr (mask off : String) : CExpr :=
  .shr (.band (.ident "w") (.ident mask)) (.ident off)

/-- The packed word and the three extracted fields for given owner, RSA flag
and destination device, evaluated where the two identifiers the mask macros
name are declared with the values of the offset macros (15 and 4). -/
def attrRoundTrip (owner rsa dev : Nat) : List (Except CError Nat) :=
  let scope : List (String × Nat) :=
    [("BOOTROM_PATR_ATTR_RSA_USED_OFF", 15), ("BOOTRM_PART_ATTR_DEST_DEV_OFF", 4)]
  match evalHdr (("owner", owner) :: ("rsa", rsa) :: ("dev", dev) :: scope) packAttrExpr with
  | .error e => [.error e]
  | .ok w =>
    [ evalHdr (("w", w) :: scope)
        (unpackAttrExpr "BOOTROM_PART_ATTR_OWNER_MASK" "BOOTROM_PART_ATTR_OWNER_OFF"),
      evalHdr (("w", w) :: scope)
        (unpackAttrExpr "BOOTROM_PART_ATTR_RSA_USED_MASK" "BOOTROM_PART_ATTR_RSA_USED_OFF"),
      evalHdr (("w", w) :: scope)
        (unpackAttrExpr "BOOTROM_PART_ATTR_DEST_DEV_MASK" "BOOTROM_PART_ATTR_DEST_DEV_OFF") ]

/-! ## File signatures (bootrom.h lines 210-219) -/

def FILE_MAGIC_ELF : Nat := 0x464C457F
def FILE_MAGIC_XILINXBIT_0 : Nat := 0xf00f0900
def FILE_MAGIC_XILINXBIT_1 : Nat := 0xf00ff00f
def FILE_MAGIC_LINUX : Nat := 0x56190527

/-- The 32-bit word a little-endian machine reads from four consecutive bytes. -/
def le32 (b0 b1 b2 b3 : Nat) : Nat :=
  (b0 % 256) + (b1 % 256) * 2 ^ 8 + (b2 % 256) * 2 ^ 16 + (b3 % 256) * 2 ^ 24

/-- The four bytes of a 32-bit word from most significant to least significant. -/
def bytesMsbFirst (w : Nat) : List Nat :=
  [w / 2 ^ 24 % 256, w / 2 ^ 16 % 256, w / 2 ^ 8 % 256, w % 256]

/-- Byte swap of a 32-bit word. -/
def bswap32 (w : Nat) : Nat :=
  le32 (w / 2 ^ 24 % 256) (w / 2 ^ 16 % 256) (w / 2 ^ 8 % 256) (w % 256)

/-- First word of a file as the builder reads it: the little-endian word at
offset 0, when the file has at least four bytes. -/
def firstWord : List Nat → Option Nat
  | b0 :: b1 :: b2 :: b3 :: _ => some (le32 b0 b1 b2 b3)
  | _ => none

/-- The container formats recognised by their first word. -/
inductive FileKind where
  | ELF
  | Bitstream
  | LinuxImage
  deriving DecidableEq, Repr

/-- First-word signature of each recognised format. -/
def FileKind.magic : FileKind → Nat
  | .ELF => FILE_MAGIC_ELF
  | .Bitstream => FILE_MAGIC_XILINXBIT_0
  | .LinuxImage => FILE_MAGIC_LINUX

/-- The file's first word is the signature of format `k`. -/
def FileKind.matchesFile (k : FileKind) (file : List Nat) : Prop :=
  firstWord file = some k.magic

instance (k : FileKind) (file : List Nat) : Decidable (k.matchesFile file) := by
  unfold FileKind.matchesFile; infer_instance

/-- The word read back from the `img_id` field after the characters of `s`
were stored into it in order (first character at the lowest address). -/
def storedWord (s : String) : Nat :=
  match s.toList.map Char.toNat with
  | b0 :: b1 :: b2 :: b3 :: _ => le32 b0 b1 b2 b3
  | _ => 0

/-! ## The two public operations (bootrom.h lines 13-14)

The header only declares `estimate_boot_image_size` and `create_boot_image`;
their bodies are modelled from sections 3, 4.2, 4.3, 4.5 and 6 of the
specification. The estimate is the total of the layout plan, computed by
cursor arithmetic alone; the builder emits the bytes of the image at the
planned offsets and reports the length of what it has emitted. Both lengths
are `uint32_t` in the header, so both are reduced modulo 2^32. -/

/-- Modelled from the spec: the two supported platforms (section 3,
PlatformProfile), Platform-A (zynq) and Platform-B (zynqmp). -/
inductive Platform where
  | A
  | B
  deriving DecidableEq, Repr

/-- Modelled from the spec: one entry of the configuration (section 3,
PartitionSpec; its C type `bif_cfg_t` comes from `bif.h`): source file path,
load and execute addresses, attribute flags, and the optional forced offset
of section 4.3 (pinned placement). -/
structure PartitionSpec where
  fname : String
  load : Nat
  exec : Nat
  owner : Nat
  dev : Nat
  rsa : Nat
  offset : Option Nat
  deriving Repr

/-- Modelled from the spec: the resolved configuration (section 6, BifConfig):
platform selection plus the ordered partition list. -/
structure BifConfig where
  platform : Platform
  partitions : List PartitionSpec
  deriving Repr

/-- Modelled from the spec: the Platform Profile lookup of the fixed
partition-header-table offset (section 4.1), from the constants of the header. -/
def partHdrOff : Platform → Nat
  | .A => BOOTROM_PART_HDR_OFF
  | .B => BOOTROM_PART_HDR_OFF_ZMP

/-- Modelled from the spec: the layout plan (section 3, LayoutPlan): the byte
range of each kind of header region, the byte range of each payload in
configuration order, and the total image length. -/
structure LayoutPlan where
  bootHdr : Range
  imgHdrTab : Range
  partHdrs : Range
  imgHdrs : Range
  payloads : List Range
  total : Nat
  deriving Repr

/-- Modelled from the spec: all ranges of a plan, header regions first, then
the payloads in configuration order (section 3). -/
def LayoutPlan.ranges (plan : LayoutPlan) : List Range :=
  [plan.bootHdr, plan.imgHdrTab, plan.partHdrs, plan.imgHdrs] ++ plan.payloads

/-- Modelled from the spec: the extracted payload is word-length padded with
trailing zero bytes (section 4.2). -/
def padWord (bytes : List Nat) : List Nat :=
  bytes ++ List.replicate (roundUp bytes.length 4 - bytes.length) 0

/-- Modelled from the spec: extraction of every partition in configuration
order (section 4.2); `extract` is the Input Classifier and Extractor applied to
the file behind a path, and the first failure aborts the build. -/
def extractAll (extract : String → Except ErrorKind (List Nat)) :
    List PartitionSpec → Except ErrorKind (List (PartitionSpec × List Nat))
  | [] => .ok []
  | p :: rest =>
    match extract p.fname with
    | .error e => .error e
    | .ok bytes =>
      match extractAll extract rest with
      | .error e => .error e
      | .ok done => .ok ((p, padWord bytes) :: done)

/-- Modelled from the spec: payload placement (section 4.3): for each
partition in configuration order, take the forced offset when there is one and
the cursor otherwise, align it up to the next 4-byte boundary, record it as
the payload start, and advance the cursor past the payload. The cursor is the
end of everything placed so far, so it never moves back: a payload pinned
below it leaves it where it is. Returns the payload ranges and the final
cursor. -/
def placePayloads : Nat → List (PartitionSpec × List Nat) → List Range × Nat
  | cursor, [] => ([], cursor)
  | cursor, (p, bytes) :: rest =>
    let start := roundUp (p.offset.getD cursor) 4
    let placed := placePayloads (max cursor (start + bytes.length)) rest
    (⟨start, start + bytes.length⟩ :: placed.1, placed.2)

/-- Modelled from the spec: overlap detection (section 4.3), insertion of a
range into a list sorted by start offset. -/
def insertRange (r : Range) : List Range → List Range
  | [] => [r]
  | x :: xs => if r.start ≤ x.start then r :: x :: xs else x :: insertRange r xs

/-- Modelled from the spec: overlap detection (section 4.3), the ranges sorted
by start offset. -/
def sortRanges (rs : List Range) : List Range := rs.foldr insertRange []

/-- Modelled from the spec: overlap detection (section 4.3), each range of the
sorted list ends at or before the start of the next one. -/
def noOverlap : List Range → Bool
  | a :: b :: rest => decide (a.stop ≤ b.start) && noOverlap (b :: rest)
  | _ => true

/-- Modelled from the spec: the layout algorithm (section 4.3). The cursor
starts at the platform's fixed partition-header-table offset; space for N
partition-header records and N image-header records is reserved there; the
payloads are placed right after the last header region (section 8); all
ranges are sorted by start offset and checked for overlap; the total image
length is the final cursor rounded up to the padding granularity. -/
def layout (extract : String → Except ErrorKind (List Nat)) (c : BifConfig) :
    Except ErrorKind (LayoutPlan × List (PartitionSpec × List Nat)) :=
  match extractAll extract c.partitions with
  | .error e => .error e
  | .ok parts =>
    let n := c.partitions.length
    let partHdrs : Range :=
      ⟨partHdrOff c.platform, partHdrOff c.platform + n * bootrom_partition_hdr_t.sizeof⟩
    let imgHdrs : Range := ⟨partHdrs.stop, partHdrs.stop + n * bootrom_img_hdr_t.sizeof⟩
    let placed := placePayloads imgHdrs.stop parts
    let plan : LayoutPlan :=
      { bootHdr := recordRange 0 bootrom_hdr_t
        imgHdrTab := recordRange BOOTROM_IMG_HDR_OFF bootrom_img_hdr_tab_t
        partHdrs := partHdrs
        imgHdrs := imgHdrs
        payloads := placed.1
        total := roundUp placed.2 BOOTROM_IMG_PADDING_SIZE }
    if noOverlap (sortRanges plan.ranges) then .ok (plan, parts)
    else .error .SectionOverlap

/-- Modelled from the spec: `estimate_boot_image_size` (sections 4.3 and 6):
runs the full layout algorithm without emitting bytes and returns the final
total span, as the `uint32_t` of bootrom.h line 13. -/
def estimate_boot_image_size (extract : String → Except ErrorKind (List Nat))
    (c : BifConfig) : Except ErrorKind Nat :=
  match layout extract c with
  | .error e => .error e
  | .ok plan => .ok (plan.1.total % 2 ^ 32)

/-- Modelled from the spec: emission of the header area (section 4.4): the
bytes from offset 0 up to `stop`, the end of the last header region, each
byte as the Header Serializer `hdrByte` gives it for its offset. -/
def emitHeaders (hdrByte : Nat → Nat) (stop : Nat) : List Nat :=
  (List.range stop).map hdrByte

/-- Modelled from the spec: copying a payload into the output buffer (section
4.3): the image grows with zero bytes up to the end of the payload when it is
shorter, and the bytes at `[off, off + bytes.length)` become `bytes`. -/
def storeAt (buf : List Nat) (off : Nat) (bytes : List Nat) : List Nat :=
  let grown := buf ++ List.replicate (off + bytes.length - buf.length) 0
  grown.take off ++ bytes ++ grown.drop (off + bytes.length)

/-- Modelled from the spec: every payload is copied to its planned start
offset, in configuration order (section 4.3). -/
def emitPayloads : List Nat → List Range → List (PartitionSpec × List Nat) → List Nat
  | image, r :: rs, (_, bytes) :: rest => emitPayloads (storeAt image r.start bytes) rs rest
  | image, _, _ => image

/-- Modelled from the spec: the image is filled with zero bytes up to the next
multiple of the padding granularity (section 4.3). -/
def padImage (image : List Nat) : List Nat :=
  image ++ List.replicate (roundUp image.length BOOTROM_IMG_PADDING_SIZE - image.length) 0

/-- Modelled from the spec: `create_boot_image` (sections 4.3, 4.5 and 6): runs
the layout algorithm, serializes the header area, copies every payload to its
planned offset, pads the image, and yields the image with its length, the
number of bytes emitted, as the `uint32_t` stored through the length
parameter of bootrom.h line 14. `serialize` is the Header Serializer of
section 4.4: the byte it writes at each offset of the header area. -/
def create_boot_image (extract : String → Except ErrorKind (List Nat))
    (serialize : BifConfig → LayoutPlan → Nat → Nat)
    (c : BifConfig) : Except ErrorKind (List Nat × Nat) :=
  match layout extract c with
  | .error e => .error e
  | .ok (plan, parts) =>
    let image := emitHeaders (serialize c plan) plan.imgHdrs.stop
    let image := emitPayloads image plan.payloads parts
    let image := padImage image
    .ok (image, image.length % 2 ^ 32)

/-- Results of the two operations can be compared. -/
instance instDecidableEqResult {α : Type} [DecidableEq α] : DecidableEq (Except ErrorKind α)
  | .ok a, .ok b => if h : a = b then isTrue (by rw [h]) else isFalse (by intro e; cases e; exact h rfl)
  | .error a, .error b =>
    if h : a = b then isTrue (by rw [h]) else isFalse (by intro e; cases e; exact h rfl)
  | .ok _, .error _ => isFalse (by intro e; cases e)
  | .error _, .ok _ => isFalse (by intro e; cases e)

/-! ## Concrete inputs used by the witnesses -/

/-- A file system with two readable files. -/
def demoExtract : String → Except ErrorKind (List Nat)
  | "fsbl.elf" => .ok [1, 2, 3, 4, 5]
  | "u-boot.elf" => .ok [9, 9, 9]
  | _ => .error .NoFile

/-- A header serializer that writes the width-detection word of the boot
header at 0x20 and zero elsewhere. -/
def demoSerialize : BifConfig → LayoutPlan → Nat → Nat :=
  fun _ _ off =>
    if off = 0x20 then 0x66 else if off = 0x21 then 0x55
    else if off = 0x22 then 0x99 else if off = 0x23 then 0xAA else 0

/-- A Platform-B configuration with two partitions, automatically placed. -/
def demoCfg : BifConfig :=
  ⟨.B, [⟨"fsbl.elf", 0, 0, 0, 1, 0, none⟩, ⟨"u-boot.elf", 0x8000000, 0x8000000, 1, 1, 0, none⟩]⟩

/-- A Platform-B configuration whose only partition is pinned at 0x900, in the
gap between the image-header table and the partition headers. -/
def demoPinnedCfg : BifConfig :=
  ⟨.B, [⟨"fsbl.elf", 0, 0, 0, 1, 0, some 0x900⟩]⟩

/-- The 2816 bytes of the image of `demoCfg`, written out: the width-detection
word at 0x20, the payloads 1 2 3 4 5 (padded to 8 bytes) at 2784 and 9 9 9
(padded to 4 bytes) at 2792, zero elsewhere. -/
def demoImage : List Nat :=
  List.replicate 0x20 0 ++ [0x66, 0x55, 0x99, 0xAA] ++ List.replicate 2748 0 ++
    [1, 2, 3, 4, 5, 0, 0, 0] ++ [9, 9, 9, 0] ++ List.replicate 20 0

/-- The first bytes of an ELF file. -/
def demoElf : List Nat := [0x7F, 'E'.toNat, 'L'.toNat, 'F'.toNat, 1, 1, 1, 0]

/-! ## Theorems -/

/-- Rounding up to a multiple of a positive number does not go below the
number. -/
theorem le_roundUp (n a : Nat) (h : 0 < a) : n ≤ roundUp n a := by
  unfold roundUp
  have h1 := Nat.div_add_mod (n + a - 1) a
  have h2 := Nat.mod_lt (n + a - 1) h
  rw [Nat.mul_comm] at h1
  omega

/-- Copying a payload makes the image reach the end of the payload and
otherwise keeps its length. -/
theorem storeAt_length (buf : List Nat) (off : Nat) (bytes : List Nat) :
    (storeAt buf off bytes).length = max buf.length (off + bytes.length) := by
  simp only [storeAt, List.length_append, List.length_take, List.length_drop,
    List.length_replicate]
  omega

/-- The header area has as many bytes as its end offset. -/
theorem emitHeaders_length (hdrByte : Nat → Nat) (stop : Nat) :
    (emitHeaders hdrByte stop).length = stop := by
  simp [emitHeaders]

/-- Emission follows the cursor: when the image is as long as the cursor
before the payloads are placed, the image after copying every payload to its
planned offset is as long as the final cursor. -/
theorem emitPayloads_length (parts : List (PartitionSpec × List Nat)) :
    ∀ (cursor : Nat) (image : List Nat), image.length = cursor →
      (emitPayloads image (placePayloads cursor parts).1 parts).length
        = (placePayloads cursor parts).2 := by
  induction parts with
  | nil => intro cursor image h; simpa [emitPayloads, placePayloads] using h
  | cons pb rest ih =>
    intro cursor image h
    obtain ⟨p, bytes⟩ := pb
    simp only [placePayloads, emitPayloads]
    apply ih
    rw [storeAt_length, h]

/-- The padded image is as long as its length rounded up to the padding
granularity. -/
theorem padImage_length (image : List Nat) :
    (padImage image).length = roundUp image.length BOOTROM_IMG_PADDING_SIZE := by
  have h := le_roundUp image.length BOOTROM_IMG_PADDING_SIZE (by decide)
  simp only [padImage, List.length_append, List.length_replicate]
  omega

/-- What a successful layout returns: the four header regions at their fixed
places, and the payload ranges and the total of the placement started at the
end of the image-header array. -/
theorem layout_ok (extract : String → Except ErrorKind (List Nat)) (c : BifConfig)
    (plan : LayoutPlan) (parts : List (PartitionSpec × List Nat))
    (h : layout extract c = .ok (plan, parts)) :
    plan.bootHdr = recordRange 0 bootrom_hdr_t ∧
    plan.imgHdrTab = recordRange BOOTROM_IMG_HDR_OFF bootrom_img_hdr_tab_t ∧
    plan.partHdrs = ⟨partHdrOff c.platform,
      partHdrOff c.platform + c.partitions.length * bootrom_partition_hdr_t.sizeof⟩ ∧
    plan.imgHdrs = ⟨plan.partHdrs.stop,
      plan.partHdrs.stop + c.partitions.length * bootrom_img_hdr_t.sizeof⟩ ∧
    plan.payloads = (placePayloads plan.imgHdrs.stop parts).1 ∧
    plan.total = roundUp (placePayloads plan.imgHdrs.stop parts).2 BOOTROM_IMG_PADDING_SIZE ∧
    noOverlap (sortRanges plan.ranges) = true := by
  unfold layout at h
  split at h
  · cases h
  · dsimp only at h
    split at h
    · rename_i hno
      injection h with h
      injection h with h1 h2
      subst h1 h2
      exact ⟨rfl, rfl, rfl, rfl, rfl, rfl, hno⟩
    · cases h

/-- The image emitted for a successful layout has exactly as many bytes as the
total span of the plan. -/
theorem emitted_length_eq_total (extract : String → Except ErrorKind (List Nat))
    (c : BifConfig) (plan : LayoutPlan) (parts : List (PartitionSpec × List Nat))
    (hdrByte : Nat → Nat) (h : layout extract c = .ok (plan, parts)) :
    (padImage (emitPayloads (emitHeaders hdrByte plan.imgHdrs.stop) plan.payloads parts)).length
      = plan.total := by
  obtain ⟨_, _, _, _, hp, ht, _⟩ := layout_ok extract c plan parts h
  rw [padImage_length, ht, hp,
    emitPayloads_length parts plan.imgHdrs.stop _ (emitHeaders_length _ _)]

/-- C1: whenever `create_boot_image` succeeds on a configuration and reports
the image length `len` (the number of bytes it emitted, as a 32-bit value),
`estimate_boot_image_size` on the same configuration returns the same length
`len`, and `len` is the length of the image modulo 2^32. -/
theorem estimate_eq_created_length (extract : String → Except ErrorKind (List Nat))
    (serialize : BifConfig → LayoutPlan → Nat → Nat) (c : BifConfig)
    (image : List Nat) (len : Nat)
    (h : create_boot_image extract serialize c = .ok (image, len)) :
    estimate_boot_image_size extract c = .ok len ∧ len = image.length % 2 ^ 32 := by
  unfold create_boot_image at h
  unfold estimate_boot_image_size
  cases hl : layout extract c with
  | error e => simp [hl] at h
  | ok r =>
    obtain ⟨plan, parts⟩ := r
    simp only [hl] at h ⊢
    injection h with h
    injection h with himg hlen
    have key := emitted_length_eq_total extract c plan parts (serialize c plan) hl
    subst himg
    rw [key] at hlen
    exact ⟨by rw [hlen], by rw [← hlen, key]⟩

/-- Witness for C1: on `demoCfg` the build succeeds with the image `demoImage`
and image length 2816, and the estimate is 2816. -/
theorem estimate_eq_created_length_witness :
    create_boot_image demoExtract demoSerialize demoCfg = .ok (demoImage, 2816) ∧
    estimate_boot_image_size demoExtract demoCfg = .ok 2816 ∧
    2816 = demoImage.length % 2 ^ 32 := by
  have h : create_boot_image demoExtract demoSerialize demoCfg = .ok (demoImage, 2816) := by
    decide!
  exact ⟨h, estimate_eq_created_length demoExtract demoSerialize demoCfg demoImage 2816 h⟩

/-- Whenever the estimate succeeds with length `len`, the build succeeds too
and reports `len`, the length of the image it emitted modulo 2^32. -/
theorem create_ok_of_estimate_ok (extract : String → Except ErrorKind (List Nat))
    (serialize : BifConfig → LayoutPlan → Nat → Nat) (c : BifConfig) (len : Nat)
    (h : estimate_boot_image_size extract c = .ok len) :
    ∃ image, create_boot_image extract serialize c = .ok (image, len) ∧
      image.length % 2 ^ 32 = len := by
  unfold estimate_boot_image_size at h
  unfold create_boot_image
  cases hl : layout extract c with
  | error e => simp [hl] at h
  | ok r =>
    obtain ⟨plan, parts⟩ := r
    simp only [hl] at h ⊢
    injection h with h
    have key := emitted_length_eq_total extract c plan parts (serialize c plan) hl
    refine ⟨padImage (emitPayloads (emitHeaders (serialize c plan) plan.imgHdrs.stop)
      plan.payloads parts), ?_, ?_⟩
    · rw [key, h]
    · rw [key, h]

/-- Placement never moves the cursor back, and every payload it places ends at
or below the final cursor. -/
theorem placePayloads_stop_le (parts : List (PartitionSpec × List Nat)) :
    ∀ cursor : Nat, cursor ≤ (placePayloads cursor parts).2 ∧
      ∀ r ∈ (placePayloads cursor parts).1, r.stop ≤ (placePayloads cursor parts).2 := by
  induction parts with
  | nil => intro cursor; simp [placePayloads]
  | cons pb rest ih =>
    intro cursor
    obtain ⟨p, bytes⟩ := pb
    simp only [placePayloads, List.mem_cons, forall_eq_or_imp]
    obtain ⟨h1, h2⟩ :=
      ih (max cursor (roundUp (p.offset.getD cursor) 4 + bytes.length))
    refine ⟨by omega, by omega, h2⟩

/-- Every payload is placed at a multiple of 4. -/
theorem placePayloads_start_aligned (parts : List (PartitionSpec × List Nat)) :
    ∀ cursor : Nat, ∀ r ∈ (placePayloads cursor parts).1, r.start % 4 = 0 := by
  induction parts with
  | nil => intro cursor; simp [placePayloads]
  | cons pb rest ih =>
    intro cursor
    obtain ⟨p, bytes⟩ := pb
    simp only [placePayloads, List.mem_cons, forall_eq_or_imp]
    exact ⟨by simp [roundUp], ih _⟩

/-- The total span of a successful layout covers every range of the plan, and
every range starts on a 4-byte boundary. -/
theorem layout_total_span (extract : String → Except ErrorKind (List Nat)) (c : BifConfig)
    (plan : LayoutPlan) (parts : List (PartitionSpec × List Nat))
    (h : layout extract c = .ok (plan, parts)) :
    ∀ r ∈ plan.ranges, r.stop ≤ plan.total ∧ r.start % 4 = 0 := by
  obtain ⟨hb, ht, hp, hi, hpay, htot, _⟩ := layout_ok extract c plan parts h
  obtain ⟨hc, hs⟩ := placePayloads_stop_le parts plan.imgHdrs.stop
  have ha := placePayloads_start_aligned parts plan.imgHdrs.stop
  have hle := le_roundUp (placePayloads plan.imgHdrs.stop parts).2 BOOTROM_IMG_PADDING_SIZE
    (by decide)
  have hb2 : recordRange 0 bootrom_hdr_t = ⟨0, 0x8C0⟩ := by decide
  have ht2 : recordRange BOOTROM_IMG_HDR_OFF bootrom_img_hdr_tab_t = ⟨0x8C0, 0x900⟩ := by decide
  have hps : bootrom_partition_hdr_t.sizeof = 64 := by decide
  have his : bootrom_img_hdr_t.sizeof = 48 := by decide
  have hoff : 0x900 ≤ partHdrOff c.platform ∧ partHdrOff c.platform % 4 = 0 := by
    cases c.platform <;> decide
  rw [hb2] at hb
  rw [ht2] at ht
  rw [hps] at hp
  rw [his] at hi
  rw [← htot] at hle
  have hstop : plan.partHdrs.stop
      = partHdrOff c.platform + c.partitions.length * 64 := by rw [hp]
  have hstop2 : plan.imgHdrs.stop = plan.partHdrs.stop + c.partitions.length * 48 := by
    rw [hi]
  have hstart : plan.partHdrs.start = partHdrOff c.platform := by rw [hp]
  have hstart2 : plan.imgHdrs.start = plan.partHdrs.stop := by rw [hi]
  intro r hr
  simp only [LayoutPlan.ranges, List.cons_append, List.nil_append, List.mem_cons] at hr
  rcases hr with hr | hr | hr | hr | hr
  · subst hr; rw [hb]; exact ⟨by show 0x8C0 ≤ plan.total; omega, rfl⟩
  · subst hr; rw [ht]; exact ⟨by show 0x900 ≤ plan.total; omega, rfl⟩
  · subst hr; constructor <;> omega
  · subst hr; constructor <;> omega
  · rw [hpay] at hr
    exact ⟨Nat.le_trans (hs r hr) hle, ha r hr⟩

/-- Inserting a range keeps the ranges, up to order. -/
theorem insertRange_perm (r : Range) (l : List Range) : (insertRange r l).Perm (r :: l) := by
  induction l with
  | nil => exact List.Perm.refl _
  | cons x xs ih =>
    unfold insertRange
    split
    · exact List.Perm.refl _
    · exact (List.Perm.cons x ih).trans (List.Perm.swap r x xs)

/-- Sorting keeps the ranges, up to order. -/
theorem sortRanges_perm (l : List Range) : (sortRanges l).Perm l := by
  induction l with
  | nil => exact List.Perm.refl _
  | cons x xs ih =>
    show (insertRange x (sortRanges xs)).Perm (x :: xs)
    exact (insertRange_perm x (sortRanges xs)).trans (List.Perm.cons x ih)

/-- Inserting into a list sorted by start offset gives a list sorted by start
offset. -/
theorem insertRange_sorted (r : Range) (l : List Range)
    (h : l.Pairwise (fun a b => a.start ≤ b.start)) :
    (insertRange r l).Pairwise (fun a b => a.start ≤ b.start) := by
  induction l with
  | nil => simp [insertRange]
  | cons x xs ih =>
    rw [List.pairwise_cons] at h
    unfold insertRange
    split
    · rename_i hle
      refine List.Pairwise.cons ?_ (List.Pairwise.cons h.1 h.2)
      intro y hy
      rcases List.mem_cons.mp hy with hy | hy
      · rw [hy]; exact hle
      · exact Nat.le_trans hle (h.1 y hy)
    · rename_i hnle
      refine List.Pairwise.cons ?_ (ih h.2)
      intro y hy
      rcases List.mem_cons.mp ((insertRange_perm r xs).mem_iff.mp hy) with hy | hy
      · rw [hy]; omega
      · exact h.1 y hy

/-- The sorted ranges are sorted by start offset. -/
theorem sortRanges_sorted (l : List Range) :
    (sortRanges l).Pairwise (fun a b => a.start ≤ b.start) := by
  induction l with
  | nil => exact List.Pairwise.nil
  | cons x xs ih => exact insertRange_sorted x (sortRanges xs) ih

/-- In a list sorted by start offset that passes the overlap check, every
range ends at or before the start of every later range. -/
theorem noOverlap_pairwise (l : List Range)
    (hs : l.Pairwise (fun a b => a.start ≤ b.start)) (h : noOverlap l = true) :
    l.Pairwise (fun a b => a.stop ≤ b.start) := by
  induction l with
  | nil => exact List.Pairwise.nil
  | cons a rest ih =>
    cases rest with
    | nil => exact List.Pairwise.cons (by simp) List.Pairwise.nil
    | cons b rest =>
      simp only [noOverlap, Bool.and_eq_true, decide_eq_true_eq] at h
      rw [List.pairwise_cons] at hs
      have hrest := ih hs.2 h.2
      refine List.Pairwise.cons ?_ hrest
      intro y hy
      rcases List.mem_cons.mp hy with hy | hy
      · rw [hy]; exact h.1
      · exact Nat.le_trans h.1 ((List.pairwise_cons.mp hs.2).1 y hy)

/-- The ranges of a successful layout are pairwise disjoint. -/
theorem layout_ranges_disjoint (extract : String → Except ErrorKind (List Nat)) (c : BifConfig)
    (plan : LayoutPlan) (parts : List (PartitionSpec × List Nat))
    (h : layout extract c = .ok (plan, parts)) :
    plan.ranges.Pairwise Range.disjoint := by
  obtain ⟨_, _, _, _, _, _, hno⟩ := layout_ok extract c plan parts h
  have hsorted := noOverlap_pairwise _ (sortRanges_sorted plan.ranges) hno
  have hdis : (sortRanges plan.ranges).Pairwise Range.disjoint :=
    hsorted.imp (fun hab => Or.inl hab)
  have hsymm : ∀ a b : Range, a.disjoint b → b.disjoint a := fun _ _ hab => Or.symm hab
  exact ((sortRanges_perm plan.ranges).pairwise_iff (fun {a b} => hsymm a b)).mp hdis

/-- A payload pinned at 0x900 into the gap before the partition headers keeps
the total at the end of the header regions (2672 rounded up to 2688); a
payload pinned at 0x8c0 onto the image-header table is a section overlap. -/
theorem pinned_placement_demo :
    estimate_boot_image_size demoExtract demoPinnedCfg = .ok 2688 ∧
    estimate_boot_image_size demoExtract ⟨.B, [⟨"fsbl.elf", 0, 0, 0, 1, 0, some 0x8c0⟩]⟩
      = .error .SectionOverlap ∧
    estimate_boot_image_size demoExtract ⟨.A, [⟨"missing.bit", 0, 0, 0, 2, 0, none⟩]⟩
      = .error .NoFile := by
  decide

/-- C2: the boot header record is 0x8C0 bytes long: its platform-common part
is 0x4C bytes, the zynq part is 541 words and the zynqmp part 539 words, and
the union of the two is as large as the larger; this end offset equals both
BOOTROM_IMG_HDR_OFF and BOOTROM_MIN_SRC_OFFSET, so the minimum source offset
is at least the end of the boot header and the image-header table starts
exactly where the boot header ends. -/
theorem bootrom_hdr_size :
    bootrom_hdr_t.sizeof = 0x8C0 ∧
    bootrom_hdr_t.offsetof "checksum" = some 0x48 ∧
    bootrom_hdr_zynq_part.sizeof = 541 * 4 ∧
    bootrom_hdr_zynqmp_part.sizeof = 539 * 4 ∧
    0x4C + max bootrom_hdr_zynq_part.sizeof bootrom_hdr_zynqmp_part.sizeof = 0x8C0 ∧
    BOOTROM_IMG_HDR_OFF = bootrom_hdr_t.sizeof ∧
    BOOTROM_MIN_SRC_OFFSET = bootrom_hdr_t.sizeof ∧
    (recordRange 0 bootrom_hdr_t).stop ≤ BOOTROM_MIN_SRC_OFFSET ∧
    (recordRange BOOTROM_IMG_HDR_OFF bootrom_img_hdr_tab_t).start
      = (recordRange 0 bootrom_hdr_t).stop := by
  decide

/-- C3 as stated fails: the boot header does not end in its checksum field
(the field is at 0x48 of 0x8C0 bytes) and the image header has no checksum
field, so not all four records end in a checksum field. -/
theorem not_all_records_end_in_checksum :
    ¬ endsInChecksum bootrom_hdr_t ∧
    ¬ endsInChecksum bootrom_img_hdr_t ∧
    ¬ (endsInChecksum bootrom_hdr_t ∧ endsInChecksum bootrom_img_hdr_tab_t ∧
       endsInChecksum bootrom_partition_hdr_t ∧ endsInChecksum bootrom_img_hdr_t) := by
  decide

/-- C3 amended: the image-header table and the partition header end in a
checksum field (its offset is the record size minus 4, namely 60 of 64); the
boot header has a checksum field at byte offset 0x48 of its 0x8C0 bytes, and
the image header has no checksum field, its last field being the 32-byte
name at offset 16 of 48. -/
theorem records_checksum_position :
    endsInChecksum bootrom_img_hdr_tab_t ∧
    bootrom_img_hdr_tab_t.offsetof "checksum" = some 60 ∧
    bootrom_img_hdr_tab_t.sizeof = 64 ∧
    endsInChecksum bootrom_partition_hdr_t ∧
    bootrom_partition_hdr_t.offsetof "checksum" = some 60 ∧
    bootrom_partition_hdr_t.sizeof = 64 ∧
    bootrom_hdr_t.offsetof "checksum" = some 0x48 ∧
    bootrom_hdr_t.fieldSizeof "checksum" = some 4 ∧
    bootrom_hdr_t.sizeof = 0x8C0 ∧
    bootrom_img_hdr_t.offsetof "checksum" = none ∧
    bootrom_img_hdr_t.offsetof "name" = some 16 ∧
    bootrom_img_hdr_t.fieldSizeof "name" = some 32 ∧
    bootrom_img_hdr_t.sizeof = 48 := by
  decide

/-- C4, the header as written: BOOTROM_PART_ATTR_OWNER_MASK has the value
3 << 16, but BOOTROM_PART_ATTR_RSA_USED_MASK and BOOTROM_PART_ATTR_DEST_DEV_MASK
expand to shifts by the identifiers BOOTROM_PATR_ATTR_RSA_USED_OFF and
BOOTRM_PART_ATTR_DEST_DEV_OFF, which the header never defines, so they have no
value; for owner = UBOOT, rsa = 1, dev = INT the packed word is 0x18030, the
owner is extracted as 1, and the RSA and destination-device extractions have
no value. -/
theorem part_attr_masks_undeclared :
    evalHdr [] (.ident "BOOTROM_PART_ATTR_OWNER_MASK") = .ok 0x30000 ∧
    evalHdr [] (.ident "BOOTROM_PART_ATTR_RSA_USED_MASK")
      = .error (.undeclared "BOOTROM_PATR_ATTR_RSA_USED_OFF") ∧
    evalHdr [] (.ident "BOOTROM_PART_ATTR_DEST_DEV_MASK")
      = .error (.undeclared "BOOTRM_PART_ATTR_DEST_DEV_OFF") ∧
    evalHdr [("owner", 1), ("rsa", 1), ("dev", 3)] packAttrExpr = .ok 0x18030 ∧
    evalHdr [("w", 0x18030)]
        (unpackAttrExpr "BOOTROM_PART_ATTR_OWNER_MASK" "BOOTROM_PART_ATTR_OWNER_OFF")
      = .ok 1 ∧
    evalHdr [("w", 0x18030)]
        (unpackAttrExpr "BOOTROM_PART_ATTR_RSA_USED_MASK" "BOOTROM_PART_ATTR_RSA_USED_OFF")
      = .error (.undeclared "BOOTROM_PATR_ATTR_RSA_USED_OFF") ∧
    evalHdr [("w", 0x18030)]
        (unpackAttrExpr "BOOTROM_PART_ATTR_DEST_DEV_MASK" "BOOTROM_PART_ATTR_DEST_DEV_OFF")
      = .error (.undeclared "BOOTRM_PART_ATTR_DEST_DEV_OFF") := by
  refine ⟨rfl, rfl, rfl, rfl, rfl, rfl, rfl⟩

/-- Where the two misspelt identifiers are declared as 15 and 4, packing is
lossless for every owner in {0, 1}, RSA flag in {0, 1} and device in 0..3. -/
theorem part_attr_roundtrip_when_declared :
    ∀ owner ∈ [0, 1], ∀ rsa ∈ [0, 1], ∀ dev ∈ [0, 1, 2, 3],
      attrRoundTrip owner rsa dev = [.ok owner, .ok rsa, .ok dev] := by
  simp only [List.forall_mem_cons, List.not_mem_nil, false_imp_iff, implies_true, and_true]
  refine ⟨⟨⟨rfl, rfl, rfl, rfl⟩, ⟨rfl, rfl, rfl, rfl⟩⟩, ⟨⟨rfl, rfl, rfl, rfl⟩, ⟨rfl, rfl, rfl, rfl⟩⟩⟩

/-- C5: the fixed header ranges appear in order without intersecting: the
boot header, the image-header table, then the partition-header region at
BOOTROM_PART_HDR_OFF up to BOOTROM_PART_HDR_END_OFF followed by the payload
area at BOOTROM_BINS_OFF (Platform-A), or a partition-header region of any
length at BOOTROM_PART_HDR_OFF_ZMP (Platform-B); every range starts on a
4-byte boundary and each of the five offset constants is a multiple of 4, so
dividing it by 4 and multiplying back is exact. -/
theorem fixed_ranges_disjoint_aligned :
    List.Pairwise Range.disjoint
      [recordRange 0 bootrom_hdr_t,
       recordRange BOOTROM_IMG_HDR_OFF bootrom_img_hdr_tab_t,
       ⟨BOOTROM_PART_HDR_OFF, BOOTROM_PART_HDR_END_OFF⟩] ∧
    (recordRange 0 bootrom_hdr_t).stop ≤ BOOTROM_IMG_HDR_OFF ∧
    (recordRange BOOTROM_IMG_HDR_OFF bootrom_img_hdr_tab_t).stop ≤ BOOTROM_PART_HDR_OFF ∧
    BOOTROM_PART_HDR_OFF ≤ BOOTROM_PART_HDR_END_OFF ∧
    BOOTROM_PART_HDR_END_OFF ≤ BOOTROM_BINS_OFF ∧
    (recordRange BOOTROM_IMG_HDR_OFF bootrom_img_hdr_tab_t).stop ≤ BOOTROM_PART_HDR_OFF_ZMP ∧
    (∀ len : Nat, List.Pairwise Range.disjoint
      [recordRange 0 bootrom_hdr_t,
       recordRange BOOTROM_IMG_HDR_OFF bootrom_img_hdr_tab_t,
       ⟨BOOTROM_PART_HDR_OFF_ZMP, BOOTROM_PART_HDR_OFF_ZMP + len⟩]) ∧
    (∀ len : Nat, List.Pairwise Range.disjoint
      [recordRange 0 bootrom_hdr_t,
       recordRange BOOTROM_IMG_HDR_OFF bootrom_img_hdr_tab_t,
       ⟨BOOTROM_PART_HDR_OFF, BOOTROM_PART_HDR_END_OFF⟩,
       ⟨BOOTROM_BINS_OFF, BOOTROM_BINS_OFF + len⟩]) ∧
    (∀ off ∈ [0, BOOTROM_IMG_HDR_OFF, BOOTROM_PART_HDR_OFF, BOOTROM_PART_HDR_END_OFF,
        BOOTROM_BINS_OFF, BOOTROM_PART_HDR_OFF_ZMP], off % 4 = 0 ∧ off / 4 * 4 = off) := by
  have h1 : (recordRange 0 bootrom_hdr_t) = ⟨0, 0x8C0⟩ := by decide
  have h2 : (recordRange BOOTROM_IMG_HDR_OFF bootrom_img_hdr_tab_t) = ⟨0x8C0, 0x900⟩ := by decide
  refine ⟨by decide, by decide, by decide, by decide, by decide, by decide, ?_, ?_, by decide⟩
  · intro len
    rw [h1, h2]
    simp [Range.disjoint, BOOTROM_PART_HDR_OFF_ZMP]
  · intro len
    rw [h1, h2]
    simp [Range.disjoint, BOOTROM_PART_HDR_OFF, BOOTROM_PART_HDR_END_OFF, BOOTROM_BINS_OFF]

/-- Witness for C5: BOOTROM_PART_HDR_END_OFF (0xd7c) is a multiple of 4 and
survives the conversion to a word offset and back. -/
theorem fixed_ranges_disjoint_aligned_witness :
    BOOTROM_PART_HDR_END_OFF % 4 = 0 ∧
    BOOTROM_PART_HDR_END_OFF / 4 * 4 = BOOTROM_PART_HDR_END_OFF :=
  fixed_ranges_disjoint_aligned.2.2.2.2.2.2.2.2 BOOTROM_PART_HDR_END_OFF (by decide)

/-- C6: the image-header table record is 64 bytes, 16 words, whichever
platform reads it: after the five common words the Platform-A padding and the
Platform-B extension (boot_dev, reserved[9], checksum) both start at word 5
and both occupy 11 words; boot_dev is word 5 and the Platform-B checksum is
the trailing word, word 15 at byte offset 60. -/
theorem img_hdr_tab_layout :
    bootrom_img_hdr_tab_t.sizeof = 64 ∧
    bootrom_img_hdr_tab_t.sizeof = 16 * 4 ∧
    bootrom_img_hdr_tab_t.offsetof "auth_hdr_off" = some (4 * 4) ∧
    bootrom_img_hdr_tab_t.offsetof "padding" = some (5 * 4) ∧
    bootrom_img_hdr_tab_t.fieldSizeof "padding" = some (11 * 4) ∧
    bootrom_img_hdr_tab_zynqmp_part.sizeof = 11 * 4 ∧
    bootrom_img_hdr_tab_t.offsetof "boot_dev" = some (5 * 4) ∧
    bootrom_img_hdr_tab_t.offsetof "reserved" = some (6 * 4) ∧
    bootrom_img_hdr_tab_t.fieldSizeof "reserved" = some (9 * 4) ∧
    bootrom_img_hdr_tab_t.offsetof "checksum" = some (15 * 4) ∧
    bootrom_img_hdr_tab_t.offsetof "checksum" = some 60 ∧
    bootrom_img_hdr_tab_t.fieldSizeof "checksum" = some 4 ∧
    5 * 4 + 11 * 4 = bootrom_img_hdr_tab_t.sizeof := by
  decide

/-- C7: the five error codes are pairwise distinct and none is
BOOTROM_SUCCESS (0); a result code of the header is BOOTROM_SUCCESS exactly
when it is none of the five error codes; and the five error kinds of the spec
correspond one-to-one to the five error codes. -/
theorem result_codes_closed :
    BOOTROM_SUCCESS = 0 ∧
    errorCodes.length = 5 ∧
    errorCodes.Nodup ∧
    BOOTROM_SUCCESS ∉ errorCodes ∧
    resultCodes.Nodup ∧
    (∀ r ∈ resultCodes, (r = BOOTROM_SUCCESS ↔ r ∉ errorCodes)) ∧
    (∀ k1 k2 : ErrorKind, k1.code = k2.code → k1 = k2) ∧
    (∀ k : ErrorKind, k.code ∈ errorCodes ∧ k.code ≠ BOOTROM_SUCCESS) ∧
    (∀ r ∈ errorCodes, ∃ k : ErrorKind, k.code = r) := by
  refine ⟨rfl, rfl, by decide, by decide, by decide, by decide, ?_, ?_, ?_⟩
  · intro k1 k2
    cases k1 <;> cases k2 <;> decide
  · intro k
    cases k <;> decide
  · intro r hr
    simp only [errorCodes, List.mem_cons, List.mem_singleton, List.not_mem_nil, or_false] at hr
    rcases hr with h | h | h | h | h
    · exact ⟨.NoFile, h.symm⟩
    · exact ⟨.BitstreamFormat, h.symm⟩
    · exact ⟨.ElfFormat, h.symm⟩
    · exact ⟨.SectionOverlap, h.symm⟩
    · exact ⟨.Unsupported, h.symm⟩

/-- Witness for C7: BOOTROM_ERROR_SEC_OVERLAP is a result code, it is not
BOOTROM_SUCCESS, and it is one of the five error codes. -/
theorem result_codes_closed_witness :
    BOOTROM_ERROR_SEC_OVERLAP ∈ resultCodes ∧
    (BOOTROM_ERROR_SEC_OVERLAP = BOOTROM_SUCCESS ↔ BOOTROM_ERROR_SEC_OVERLAP ∉ errorCodes) :=
  ⟨by decide, result_codes_closed.2.2.2.2.2.1 BOOTROM_ERROR_SEC_OVERLAP (by decide)⟩

/-- C8: in the boot header the platform-common fields lie at the offsets the
boot ROM reads: the 8-word interrupt table at 0, width_detect at 0x20, img_id
at 0x24, encryption_status at 0x28, src_offset at 0x30, img_len at 0x34,
total_img_len at 0x40, checksum at 0x48; the ten words from width_detect
through reserved_1 lie between the interrupt table and the checksum; the
register-initialization table starts at 0xA0 in the zynq part and at 0xB8 in
the zynqmp part. -/
theorem bootrom_hdr_offsets :
    bootrom_hdr_t.offsetof "interrupt_table" = some 0 ∧
    bootrom_hdr_t.fieldSizeof "interrupt_table" = some (8 * 4) ∧
    bootrom_hdr_t.offsetof "width_detect" = some 0x20 ∧
    bootrom_hdr_t.offsetof "img_id" = some 0x24 ∧
    bootrom_hdr_t.offsetof "encryption_status" = some 0x28 ∧
    bootrom_hdr_t.offsetof "user_defined_0" = some 0x2C ∧
    bootrom_hdr_t.offsetof "fsbl_execution_addr" = some 0x2C ∧
    bootrom_hdr_t.offsetof "src_offset" = some 0x30 ∧
    bootrom_hdr_t.offsetof "img_len" = some 0x34 ∧
    bootrom_hdr_t.offsetof "reserved_0" = some 0x38 ∧
    bootrom_hdr_t.offsetof "start_of_exec" = some 0x3C ∧
    bootrom_hdr_t.offsetof "total_img_len" = some 0x40 ∧
    bootrom_hdr_t.offsetof "reserved_1" = some 0x44 ∧
    bootrom_hdr_t.fieldSizeof "reserved_1" = some 4 ∧
    bootrom_hdr_t.offsetof "checksum" = some 0x48 ∧
    0x20 + 10 * 4 = 0x48 ∧
    bootrom_hdr_t.offsetof "reg_init_zynq" = some 0xA0 ∧
    bootrom_hdr_t.offsetof "reg_init_zynqmp" = some 0xB8 := by
  decide

/-- C9: each file-signature constant is the little-endian word of the leading
bytes of its format (0x7F E L F; 27 05 19 56, the byte swap of 0x27051956;
00 09 0F F0 and 0F F0 0F F0); the three first-word signatures are pairwise
distinct, so at most one of ELF, Bitstream and LinuxImage matches the first
word of a file. -/
theorem file_magic_signatures :
    FILE_MAGIC_ELF = le32 0x7F 'E'.toNat 'L'.toNat 'F'.toNat ∧
    FILE_MAGIC_LINUX = le32 0x27 0x05 0x19 0x56 ∧
    FILE_MAGIC_LINUX = bswap32 0x27051956 ∧
    FILE_MAGIC_XILINXBIT_0 = le32 0x00 0x09 0x0F 0xF0 ∧
    FILE_MAGIC_XILINXBIT_1 = le32 0x0F 0xF0 0x0F 0xF0 ∧
    FILE_MAGIC_ELF ≠ FILE_MAGIC_XILINXBIT_0 ∧
    FILE_MAGIC_ELF ≠ FILE_MAGIC_LINUX ∧
    FILE_MAGIC_XILINXBIT_0 ≠ FILE_MAGIC_LINUX ∧
    (∀ (file : List Nat) (k1 k2 : FileKind),
      k1.matchesFile file → k2.matchesFile file → k1 = k2) := by
  refine ⟨by decide, by decide, by decide, by decide, by decide, by decide, by decide,
    by decide, ?_⟩
  intro file k1 k2 h1 h2
  unfold FileKind.matchesFile at h1 h2
  rw [h1] at h2
  injection h2 with h2
  revert h2
  cases k1 <;> cases k2 <;> decide

/-- Witness for C9: a file starting with 0x7F E L F matches ELF, and any
format matching it is ELF. -/
theorem file_magic_signatures_witness :
    FileKind.matchesFile .ELF demoElf ∧
    ¬ FileKind.matchesFile .Bitstream demoElf ∧
    ¬ FileKind.matchesFile .LinuxImage demoElf :=
  ⟨by decide,
   fun h => FileKind.noConfusion
     (file_magic_signatures.2.2.2.2.2.2.2.2 demoElf .Bitstream .ELF h (by decide)),
   fun h => FileKind.noConfusion
     (file_magic_signatures.2.2.2.2.2.2.2.2 demoElf .LinuxImage .ELF h (by decide))⟩

/-- C10: the four characters of BOOTROM_IMG_ID, X N L X, stored in order into
the 4-byte img_id field at offset 0x24 of the boot header, read back as the
little-endian word 0x584C4E58, whose bytes from most significant to least
significant spell X L N X. -/
theorem img_id_word :
    BOOTROM_IMG_ID.toList = ['X', 'N', 'L', 'X'] ∧
    bootrom_hdr_t.offsetof "img_id" = some 0x24 ∧
    bootrom_hdr_t.fieldSizeof "img_id" = some BOOTROM_IMG_ID.length ∧
    storedWord BOOTROM_IMG_ID = 0x584C4E58 ∧
    bytesMsbFirst (storedWord BOOTROM_IMG_ID) = ['X'.toNat, 'L'.toNat, 'N'.toNat, 'X'.toNat] := by
  decide

end Bootrom
